import Mathlib

/-!
# Drive-Health ETL — verification of the core pipeline

Shallow embedding of the Drive-Health ETL service (JavaScript) in Lean 4:

* `src/validation.js`    — `validateEnvelope`, `computeIdempotencyKey`,
  `validateAndExtractKey`
* `src/sampling.js`      — `shouldSample` (SHA-256-based deterministic sampling)
* `src/batchProcessor.js`— `mapBqErrorReason`, `flushBatch`, `queueForBatch`,
  `flushPendingBatch`
* `src/handler.js`       — `categorizeError`, `processPubSubMessage`,
  `handlePubSubRequest`
* `src/index.js`         — DLQ replay job: `reconstructMessage`,
  `pullAndProcessBatch`, `main`

JavaScript values are modelled by the inductive `JsValue` (with JS truthiness);
numbers are modelled by `ℚ`; machine 32-bit arithmetic inside SHA-256 is `Nat`
arithmetic reduced `% 2^32`.  External collaborators (the JSON parser, the
platform `Date.parse`, the BigQuery client, the Pub/Sub publish call) are
passed in as explicit parameters or outcome values, exactly at the interface
the source code consumes them.
-/

/-! ## JavaScript value model -/

/-- A JSON/JavaScript value as handled by the service.  `undefined` is
represented by `Option.none` at use sites (absent object fields). -/
inductive JsValue where
  | null : JsValue
  | bool : Bool → JsValue
  | num  : ℚ → JsValue
  | str  : String → JsValue
  | obj  : List (String × JsValue) → JsValue

/-- JavaScript truthiness: `null`, `false`, `0` and `""` are falsy; objects are
always truthy. -/
def JsValue.truthy : JsValue → Bool
  | .null => false
  | .bool b => b
  | .num q => decide (q ≠ 0)
  | .str s => decide (s ≠ "")
  | .obj _ => true

/-- Property access `v[field]`; `none` models `undefined`.  (Access on
non-objects yields `undefined` in JS except on `null`/`undefined`, which the
call sites below rule out by validating first.) -/
def JsValue.getField : JsValue → String → Option JsValue
  | .obj fields, f => (fields.find? (fun kv => kv.1 == f)).map (·.2)
  | _, _ => none

/-- `!envelope[field]` in the required-field check: absent fields are falsy. -/
def fieldTruthy (env : JsValue) (f : String) : Bool :=
  match env.getField f with
  | some v => v.truthy
  | none => false

/-! ## String helpers (JS `String.prototype.includes`, `join`, `toLowerCase`) -/

/-- `hasPref s pat`: `pat` occurs at the front of `s`. -/
def hasPref : List Char → List Char → Bool
  | _, [] => true
  | [], _ :: _ => false
  | c :: cs, p :: ps => c == p && hasPref cs ps

/-- `subAt s pat`: `pat` occurs somewhere inside `s`. -/
def subAt : List Char → List Char → Bool
  | [], pat => pat.isEmpty
  | c :: cs, pat => hasPref (c :: cs) pat || subAt cs pat

/-- `s.includes(pat)` on strings. -/
def strIncludes (s pat : String) : Bool :=
  subAt s.toList pat.toList

/-- Character-wise lower-casing, as in `message.toLowerCase()`. -/
def lowerList (l : List Char) : List Char := l.map Char.toLower

/-- `message.toLowerCase().includes(pat)` — the test used by `categorizeError`. -/
def includesLower (message pat : String) : Bool :=
  subAt (lowerList message.toList) pat.toList

/-- `array.join(', ')` from JavaScript. -/
def joinComma : List String → String
  | [] => ""
  | [a] => a
  | a :: rest => a ++ ", " ++ joinComma rest

/-! ## `src/validation.js` -/

/-- The required-field list of `validateEnvelope`. -/
def requiredFields : List String :=
  ["envelope_version", "event_type", "schema_version", "tenant_id",
   "occurred_at", "payload"]

/-- `validateEnvelope` from `src/validation.js`.  `dateOk` is the platform
predicate `!isNaN(Date.parse(v))` (the `Date` parser is an external
collaborator).  A JS `throw` is modelled by `Except.error message`. -/
def validateEnvelope (dateOk : JsValue → Bool) (envelope : JsValue) :
    Except String Unit :=
  let missing := requiredFields.filter (fun f => ! fieldTruthy envelope f)
  if missing.length > 0 then
    .error ("Missing required fields: " ++ joinComma missing)
  else if ! dateOk ((envelope.getField "occurred_at").getD .null) then
    .error "occurred_at must be a valid ISO date string"
  else
    .ok ()

/-- JavaScript `a || b` on possibly-undefined values: the left operand wins
exactly when it is present and truthy. -/
def jsOr (a b : Option JsValue) : Option JsValue :=
  match a with
  | some v => if v.truthy then some v else b
  | none => b

/-- Truthiness of a possibly-undefined value (`undefined` is falsy). -/
def truthyOpt : Option JsValue → Bool
  | some v => v.truthy
  | none => false

/-- `computeIdempotencyKey` from `src/validation.js`:
`payload.call_id || payload.message_id || trace_id`, throwing when the chosen
value is falsy. -/
def computeIdempotencyKey (envelope : JsValue) : Except String JsValue :=
  let payload := (envelope.getField "payload").getD .null
  let key := jsOr (payload.getField "call_id")
      (jsOr (payload.getField "message_id") (envelope.getField "trace_id"))
  match key with
  | some v => if v.truthy then .ok v else .error "No idempotency key found"
  | none => .error "No idempotency key found"

/-- `validateAndExtractKey` from `src/validation.js`: the first thrown error
message is returned (the `errors` array always holds exactly that message, so
`errors.join('; ')` at the caller is that message). -/
def validateAndExtractKey (dateOk : JsValue → Bool) (envelope : JsValue) :
    Except String JsValue :=
  match validateEnvelope dateOk envelope with
  | .error e => .error e
  | .ok _ =>
    match computeIdempotencyKey envelope with
    | .error e => .error e
    | .ok k => .ok k

/-! ## `src/handler.js` — `categorizeError` -/

/-- The `{ isTerminal, statusCode, errorType }` record returned by
`categorizeError` and `mapBqErrorReason`. -/
structure ErrorCategory where
  isTerminal : Bool
  statusCode : ℕ
  errorType : String
deriving DecidableEq, Repr

/-- `categorizeError` from `src/handler.js`: substring matching on the
lower-cased error message. -/
def categorizeError (message : String) : ErrorCategory :=
  if includesLower message "missing required fields"
      || includesLower message "no idempotency key"
      || includesLower message "occurred_at must be a valid" then
    ⟨true, 400, "validation_error"⟩
  else if includesLower message "invalid json"
      || includesLower message "malformed envelope" then
    ⟨true, 422, "format_error"⟩
  else
    ⟨false, 503, "transient_error"⟩

/-! ## `src/sampling.js` — SHA-256 digest and `shouldSample`

`crypto.createHash('sha256')` is embedded as a full SHA-256 over byte lists
(`Nat` arithmetic reduced `% 2^32`); the JS `number` rate is modelled by `ℚ`.
-/

/-- 32-bit modulus. -/
def w32 : ℕ := 4294967296

/-- 32-bit addition. -/
def add32 (a b : ℕ) : ℕ := (a + b) % w32

/-- 32-bit right rotation by `n`. -/
def rotr32 (n a : ℕ) : ℕ := (a / 2 ^ n + a % 2 ^ n * 2 ^ (32 - n)) % w32

/-- Logical right shift by `n`. -/
def shr32 (n a : ℕ) : ℕ := a / 2 ^ n

/-- 32-bit complement. -/
def not32 (a : ℕ) : ℕ := a ^^^ 0xffffffff

def bigSig0 (x : ℕ) : ℕ := rotr32 2 x ^^^ rotr32 13 x ^^^ rotr32 22 x

def bigSig1 (x : ℕ) : ℕ := rotr32 6 x ^^^ rotr32 11 x ^^^ rotr32 25 x

def smallSig0 (x : ℕ) : ℕ := rotr32 7 x ^^^ rotr32 18 x ^^^ shr32 3 x

def smallSig1 (x : ℕ) : ℕ := rotr32 17 x ^^^ rotr32 19 x ^^^ shr32 10 x

/-- The 64 SHA-256 round constants. -/
def sha256K : List ℕ :=
  [1116352408, 1899447441, 3049323471, 3921009573, 961987163, 1508970993,
   2453635748, 2870763221, 3624381080, 310598401, 607225278, 1426881987,
   1925078388, 2162078206, 2614888103, 3248222580, 3835390401, 4022224774,
   264347078, 604807628, 770255983, 1249150122, 1555081692, 1996064986,
   2554220882, 2821834349, 2952996808, 3210313671, 3336571891, 3584528711,
   113926993, 338241895, 666307205, 773529912, 1294757372, 1396182291,
   1695183700, 1986661051, 2177026350, 2456956037, 2730485921, 2820302411,
   3259730800, 3345764771, 3516065817, 3600352804, 4094571909, 275423344,
   430227734, 506948616, 659060556, 883997877, 958139571, 1322822218,
   1537002063, 1747873779, 1955562222, 2024104815, 2227730452, 2361852424,
   2428436474, 2756734187, 3204031479, 3329325298]

/-- SHA-256 working state: eight 32-bit words. -/
structure Sha256State where
  a : ℕ
  b : ℕ
  c : ℕ
  d : ℕ
  e : ℕ
  f : ℕ
  g : ℕ
  h : ℕ

def sha256Init : Sha256State :=
  ⟨1779033703, 3144134277, 1013904242, 2773480762,
   1359893119, 2600822924, 528734635, 1541459225⟩

/-- Group bytes into big-endian 32-bit words. -/
def bytesToWords : List ℕ → List ℕ
  | b0 :: b1 :: b2 :: b3 :: rest =>
    (((b0 * 256 + b1) * 256 + b2) * 256 + b3) :: bytesToWords rest
  | _ => []

/-- One message-schedule extension: `w[i]` from `w[i-2], w[i-7], w[i-15], w[i-16]`. -/
def scheduleStep (ws : List ℕ) (i : ℕ) : ℕ :=
  add32 (add32 (smallSig1 (ws.getD (i - 2) 0)) (ws.getD (i - 7) 0))
    (add32 (smallSig0 (ws.getD (i - 15) 0)) (ws.getD (i - 16) 0))

/-- Extend the 16-word block `n` more times (to 64 words for SHA-256). -/
def buildSchedule (ws : List ℕ) : ℕ → List ℕ
  | 0 => ws
  | n + 1 =>
    let ws' := buildSchedule ws n
    ws' ++ [scheduleStep ws' ws'.length]

/-- One SHA-256 compression round. -/
def sha256Round (s : Sha256State) (ki wi : ℕ) : Sha256State :=
  let ch := (s.e &&& s.f) ^^^ (not32 s.e &&& s.g)
  let maj := (s.a &&& s.b) ^^^ (s.a &&& s.c) ^^^ (s.b &&& s.c)
  let t1 := add32 s.h (add32 (bigSig1 s.e) (add32 ch (add32 ki wi)))
  let t2 := add32 (bigSig0 s.a) maj
  ⟨add32 t1 t2, s.a, s.b, s.c, add32 s.d t1, s.e, s.f, s.g⟩

/-- Compress one 64-byte chunk into the running state. -/
def sha256Compress (s : Sha256State) (chunk : List ℕ) : Sha256State :=
  let ws := buildSchedule (bytesToWords chunk) 48
  let t := (List.zip sha256K ws).foldl (fun st p => sha256Round st p.1 p.2) s
  ⟨add32 s.a t.a, add32 s.b t.b, add32 s.c t.c, add32 s.d t.d,
   add32 s.e t.e, add32 s.f t.f, add32 s.g t.g, add32 s.h t.h⟩

/-- The message length as an 8-byte big-endian quantity (bit length). -/
def lenBytes64 (n : ℕ) : List ℕ :=
  (List.range 8).map (fun i => n / 2 ^ (8 * (7 - i)) % 256)

/-- SHA-256 padding: `0x80`, zeros to 56 mod 64, then the 64-bit bit length. -/
def sha256Pad (msg : List ℕ) : List ℕ :=
  let padZeros := (64 + 55 - msg.length % 64) % 64
  msg ++ [0x80] ++ List.replicate padZeros 0 ++ lenBytes64 (8 * msg.length)

/-- Split into 64-byte chunks (the padded message length is a multiple of 64). -/
def chunksOf64 (l : List ℕ) : List (List ℕ) :=
  (List.range ((l.length + 63) / 64)).map (fun i => (l.drop (64 * i)).take 64)

/-- SHA-256 digest of a byte list, as 32 bytes. -/
def sha256Bytes (msg : List ℕ) : List ℕ :=
  let s := (chunksOf64 (sha256Pad msg)).foldl sha256Compress sha256Init
  [s.a, s.b, s.c, s.d, s.e, s.f, s.g, s.h].flatMap
    (fun wd => [wd / 2 ^ 24 % 256, wd / 2 ^ 16 % 256, wd / 256 % 256, wd % 256])

/-- Lower-case hexadecimal digit. -/
def hexDigit (n : ℕ) : Char :=
  if n < 10 then Char.ofNat (48 + n) else Char.ofNat (87 + n)

/-- `digest('hex')`: the 64-character lower-case hex string of the digest. -/
def sha256Hex (msg : List ℕ) : String :=
  ⟨(sha256Bytes msg).flatMap (fun b => [hexDigit (b / 16), hexDigit (b % 16)])⟩

/-- Value of a lower-case hex digit. -/
def hexVal (c : Char) : ℕ :=
  if c.isDigit then c.toNat - 48 else c.toNat - 87

/-- `parseInt(hexString, 16)` on a valid hex string. -/
def hexToNat (l : List Char) : ℕ :=
  l.foldl (fun acc c => acc * 16 + hexVal c) 0

/-- `shouldSample` from `src/sampling.js`: short-circuit on the rate bounds,
otherwise compare the normalized 8-hex-digit digest prefix against the rate.
The key is the idempotency key's bytes; the JS `number` rate is a `ℚ`. -/
def shouldSample (idempotencyKey : List ℕ) (auditRate : ℚ) : Bool :=
  if auditRate ≥ 1 then true
  else if auditRate ≤ 0 then false
  else
    let hash := sha256Hex idempotencyKey
    let hashValue : ℚ := (hexToNat (hash.toList.take 8) : ℚ) / 0xffffffff
    decide (hashValue < auditRate)

/-! ## `src/batchProcessor.js` — `mapBqErrorReason` and `flushBatch`

`flushBatch` drains the module state and resolves each pending per-item
promise from the BigQuery write result.  The write result handed over by
`writeBatchToBigQuery` is the duck-typed shape the code inspects:
`{ success, errors }` where `errors[0]` may be a `PartialFailureError`
carrying per-row `{ index, errors: [{ reason, message }] }` entries.
The resolution of the `i`-th pending promise is computed by
`flushResolutions`, a pure rendering of the promise-resolution loop.
-/

/-- One `{ reason, message }` row error from BigQuery. -/
structure RowErr where
  reason : String
  message : String
deriving DecidableEq, Repr

/-- One per-row entry of a `PartialFailureError`: `{ index, errors }`. -/
structure RowErrorEntry where
  index : ℕ
  errors : List RowErr
deriving DecidableEq, Repr

/-- The error object in `writeResult.errors[0]`. -/
structure BqError where
  name : String
  message : String
  errors : List RowErrorEntry
deriving DecidableEq, Repr

/-- The `{ success, errors }` result of `writeBatchToBigQuery`. -/
structure WriteResult where
  success : Bool
  errors : List BqError
deriving DecidableEq, Repr

/-- How one pending batch promise is resolved. -/
inductive Resolution where
  | success (statusCode : ℕ)
  | failure (statusCode : ℕ) (isTerminal : Bool) (errorType : Option String)
deriving DecidableEq, Repr

/-- `mapBqErrorReason` from `src/batchProcessor.js`: `'duplicate'` is a
success-equivalent, `'invalid'` is terminal, everything else (`'timeout'`,
`'stopped'`, unknown) falls to the transient default. -/
def mapBqErrorReason (reason : String) : ErrorCategory :=
  match reason with
  | "duplicate" => ⟨true, 204, "duplicate"⟩
  | "invalid" => ⟨true, 422, "validation_error"⟩
  | _ => ⟨false, 503, "transient_error"⟩

/-- `new Map(bqError.errors.map(e => [e.index, e.errors[0]]))` followed by
`get(i)`: the last entry for an index wins; the stored value is the head of
the nested `errors` list (`undefined` if that list is empty). -/
def rowDetail (entries : List RowErrorEntry) (i : ℕ) : Option (Option RowErr) :=
  (entries.reverse.find? (fun e => e.index == i)).map (fun e => e.errors.head?)

/-- How a listed row error is resolved: duplicates become success `204`,
everything else carries its `mapBqErrorReason` category. -/
def rowFailureRes (r : RowErr) : Resolution :=
  let errorCategory := mapBqErrorReason r.reason
  if errorCategory.errorType == "duplicate" then .success 204
  else .failure errorCategory.statusCode errorCategory.isTerminal
    (some errorCategory.errorType)

/-- The per-index resolution loop of the partial-failure branch, for indexes
`i, i+1, …` while `remaining` promises are left.  A listed row whose nested
`errors` list is empty makes `rowError.reason` throw a `TypeError` in JS; the
outer `catch` then resolves every still-pending promise with `500`. -/
def perRowLoop (entries : List RowErrorEntry) (i : ℕ) : ℕ → List Resolution
  | 0 => []
  | remaining + 1 =>
    match rowDetail entries i with
    | none => .success 204 :: perRowLoop entries (i + 1) remaining
    | some (some r) => rowFailureRes r :: perRowLoop entries (i + 1) remaining
    | some none => List.replicate (remaining + 1) (.failure 500 false none)

/-- The resolutions `flushBatch` hands to the `n` pending promises of the
drained batch, as a function of the write result:

* `success` — all resolve `204`;
* `errors[0]` a `PartialFailureError` with a non-empty row list — per-row
  mapping via `mapBqErrorReason`;
* any other error shape — total failure, all resolve `503` (transient);
* no error object at all (`errors[0]` is `undefined`) — the JS `TypeError`
  reaches the `catch`, all resolve `500`. -/
def flushResolutions (writeResult : WriteResult) (n : ℕ) : List Resolution :=
  if writeResult.success then List.replicate n (.success 204)
  else
    match writeResult.errors.head? with
    | some bqError =>
      if bqError.name == "PartialFailureError" && decide (0 < bqError.errors.length)
      then perRowLoop bqError.errors 0 n
      else List.replicate n (.failure 503 false none)
    | none => List.replicate n (.failure 500 false none)

/-! ## `src/handler.js` — `processPubSubMessage` and `handlePubSubRequest`

The platform collaborators consumed inside the handler are passed explicitly:
`parseJson` for `JSON.parse(Buffer.from(data, 'base64').toString())`,
`dateOk` for `Date.parse`, `sampled` for `evaluateSampling`, and the two
BigQuery outcomes (`batchOutcome` — how this item's eventual batch flush
resolved it, `writeThrow` — a thrown error on the single-message path).
-/

/-- The `req.body.message` object: only its `data` field is consumed here. -/
structure PsMessage where
  data : Option String
deriving DecidableEq, Repr

/-- The result object `processPubSubMessage` resolves to (fields consumed by
`handlePubSubRequest`). -/
structure ProcResult where
  success : Bool
  statusCode : ℕ
  isTerminal : Option Bool
deriving DecidableEq, Repr

/-- The `catch` branch of `processPubSubMessage`: categorize and report. -/
def catchResult (msg : String) : ProcResult :=
  let c := categorizeError msg
  ⟨false, c.statusCode, some c.isTerminal⟩

/-- `processPubSubMessage` from `src/handler.js`. -/
def processPubSubMessage (dateOk : JsValue → Bool)
    (parseJson : String → Except String JsValue) (sampled : JsValue → Bool)
    (enableBatching : Bool) (batchOutcome : Except String Unit)
    (writeThrow : Option String) (message : Option PsMessage) : ProcResult :=
  match message with
  | none => catchResult "Invalid Pub/Sub message format"
  | some m =>
    match m.data with
    | none => catchResult "Invalid Pub/Sub message format"
    | some d =>
      if d = "" then catchResult "Invalid Pub/Sub message format"
      else
        match parseJson d with
        | .error e => catchResult e
        | .ok envelope =>
          match validateAndExtractKey dateOk envelope with
          | .error e => catchResult e
          | .ok key =>
            if ! sampled key then ⟨true, 204, none⟩
            else if enableBatching then
              match batchOutcome with
              | .ok _ => ⟨true, 204, none⟩
              | .error e =>
                let c := categorizeError e
                ⟨false, c.statusCode, some c.isTerminal⟩
            else
              match writeThrow with
              | some e => catchResult e
              | none => ⟨true, 204, none⟩

/-- `handlePubSubRequest` from `src/handler.js`: the HTTP status it sends is
the result's `statusCode` on both the success and the failure branch. -/
def handlePubSubRequest (dateOk : JsValue → Bool)
    (parseJson : String → Except String JsValue) (sampled : JsValue → Bool)
    (enableBatching : Bool) (batchOutcome : Except String Unit)
    (writeThrow : Option String) (message : Option PsMessage) : ℕ :=
  (processPubSubMessage dateOk parseJson sampled enableBatching batchOutcome
    writeThrow message).statusCode

/-! ## BatchAccumulator state machine

`batchQueue`, `pendingBatchResponses` and `batchTimer` are the module-level
state of `src/batchProcessor.js`; `queueForBatch`, the timer callback and
`flushPendingBatch` are the three entry points that touch it.  Handle ids are
assigned at enqueue time (each call creates a fresh promise); `resolved`
records every promise resolution performed by `flushBatch`, and `flushes`
records each flush with its time and the item ids it drained.
-/

structure AccState where
  nextId : ℕ
  batchQueue : List ℕ
  pendingResponses : List ℕ
  batchTimer : Option ℕ
  resolved : List ℕ
  flushes : List (ℕ × List ℕ)
deriving DecidableEq, Repr

def accInit : AccState := ⟨0, [], [], none, [], []⟩

/-- `flushBatch` at time `t`: empty-batch guard, then drain both lists,
clear the timer, resolve each drained promise once. -/
def flushBatchState (t : ℕ) (s : AccState) : AccState :=
  if s.batchQueue.isEmpty then s
  else
    { nextId := s.nextId
      batchQueue := []
      pendingResponses := []
      batchTimer := none
      resolved := s.resolved ++ s.pendingResponses
      flushes := s.flushes ++ [(t, s.batchQueue)] }

/-- The three events that drive the accumulator: an enqueue
(`queueForBatch`), the armed `setTimeout` callback firing, and the graceful
shutdown flush (`flushPendingBatch`). -/
inductive AccEvent where
  | add (t : ℕ)
  | fire (t : ℕ)
  | shutdown (t : ℕ)

/-- One event step.  `add`: push the item and its pending handle, flush
immediately when the size threshold is reached (`setImmediate(flushBatch)`),
otherwise arm the timer when none is armed.  `fire`: the armed timeout
callback runs at its deadline (a cleared or differently-armed timer does
nothing).  `shutdown`: flush any open non-empty batch. -/
def accStep (maxBatchSize maxBatchWaitMs : ℕ) (s : AccState) :
    AccEvent → AccState
  | .add t =>
    let s' := { s with
      nextId := s.nextId + 1
      batchQueue := s.batchQueue ++ [s.nextId]
      pendingResponses := s.pendingResponses ++ [s.nextId] }
    if s'.batchQueue.length ≥ maxBatchSize then flushBatchState t s'
    else if s'.batchTimer.isNone && decide (0 < s'.batchQueue.length) then
      { s' with batchTimer := some (t + maxBatchWaitMs) }
    else s'
  | .fire t =>
    match s.batchTimer with
    | some d => if d = t then flushBatchState t s else s
    | none => s
  | .shutdown t =>
    if 0 < s.batchQueue.length then flushBatchState t s else s

/-- Run the accumulator over an event trace from the initial module state. -/
def accRun (maxBatchSize maxBatchWaitMs : ℕ) (events : List AccEvent) :
    AccState :=
  events.foldl (accStep maxBatchSize maxBatchWaitMs) accInit

/-- The module-state invariant of the accumulator: the batch queue and the
pending-response list move in lockstep, the resolved handles plus the
still-pending ones are exactly the handles ever accepted, and the resolved
handles are exactly those drained by the recorded flushes. -/
def accInv (s : AccState) : Prop :=
  s.pendingResponses = s.batchQueue ∧
  s.resolved ++ s.batchQueue = List.range s.nextId ∧
  s.resolved = (s.flushes.map (fun p => p.2)).flatten

/-! ## `src/index.js` — DLQ replay job -/

/-- A Pub/Sub message as pulled from the dead-letter subscription. -/
structure DlqMessage where
  data : String
  attributes : List (String × String)
  messageId : String
  orderingKey : Option String
deriving DecidableEq, Repr

/-- A pulled message with its delivery (ack) token. -/
structure ReceivedMessage where
  message : DlqMessage
  ackId : String
deriving DecidableEq, Repr

/-- `attributes[k]` — first binding wins (JS objects bind each key once). -/
def attrLookup (attrs : List (String × String)) (k : String) : Option String :=
  (attrs.find? (fun kv => kv.1 == k)).map (·.2)

/-- Assigning `attributes[k] = v`: one binding per key. -/
def setAttr (attrs : List (String × String)) (k v : String) :
    List (String × String) :=
  attrs.filter (fun kv => kv.1 != k) ++ [(k, v)]

/-- Decimal digit accumulation for `parseInt`. -/
def digitsVal (acc : ℕ) : List Char → ℕ
  | [] => acc
  | c :: cs => if c.isDigit then digitsVal (acc * 10 + (c.toNat - 48)) cs else acc

/-- `parseInt(s)` on the non-negative decimal strings the replay job writes
and reads back; `none` models `NaN` (no leading digit). -/
def jsParseInt (s : String) : Option ℕ :=
  match s.toList with
  | [] => none
  | c :: _ => if c.isDigit then some (digitsVal 0 s.toList) else none

/-- `parseInt(message.attributes?.['x-replay-attempts'] || '0')`: an absent
(or empty) attribute counts as `'0'`. -/
def currentAttempts (m : DlqMessage) : Option ℕ :=
  let raw := match attrLookup m.attributes "x-replay-attempts" with
    | some v => if v = "" then "0" else v
    | none => "0"
  jsParseInt raw

/-- `currentAttempts >= MAX_REPLAY_ATTEMPTS` — `NaN >= n` is false in JS. -/
def attemptsReached (a : Option ℕ) (maxAttempts : ℕ) : Bool :=
  match a with
  | some v => decide (v ≥ maxAttempts)
  | none => false

/-- `reconstructMessage` from `src/index.js`: decode the payload, drop
`googclient_`-prefixed and old tracking attributes, stamp the bookkeeping
attributes, and either park (reason + final count) or re-arm the incremented
attempt counter.  `now` is `new Date().toISOString()`. -/
def reconstructMessage (maxReplayAttempts : ℕ) (now : String) (m : DlqMessage)
    (isParking : Bool) : DlqMessage :=
  let newAttemptCount := (currentAttempts m).map (· + 1)
  let newCountStr := match newAttemptCount with
    | some v => toString v
    | none => "NaN"
  let base := m.attributes.filter (fun kv =>
    !("googclient_".isPrefixOf kv.1) && kv.1 != "x-replay-attempts")
  let base := setAttr base "x-original-message-id"
    (if m.messageId = "" then "unknown" else m.messageId)
  let base := setAttr base "x-replay-timestamp" now
  let attrs :=
    if isParking then
      setAttr (setAttr base "x-parked-reason"
          ("Exceeded max replay attempts (" ++ toString maxReplayAttempts ++ ")"))
        "x-final-attempt-count" newCountStr
    else
      setAttr base "x-replay-attempts" newCountStr
  { data := m.data
    attributes := attrs
    messageId := m.messageId
    orderingKey := match m.orderingKey with
      | some k => if k = "" then none else some k
      | none => none }

/-- The two publish destinations of the replay job. -/
inductive Topic where
  | main
  | parking
deriving DecidableEq, Repr

/-- The per-message branch of `pullAndProcessBatch`: park once the attempt
counter has reached the maximum, otherwise republish to the main topic. -/
def processDlqMessage (maxReplayAttempts : ℕ) (now : String)
    (rm : ReceivedMessage) : Topic × DlqMessage :=
  if attemptsReached (currentAttempts rm.message) maxReplayAttempts then
    (.parking, reconstructMessage maxReplayAttempts now rm.message true)
  else
    (.main, reconstructMessage maxReplayAttempts now rm.message false)

/-- The message loop of `pullAndProcessBatch` over one pulled batch.  Each
received message is paired with whether its `publisherClient.publish` call
succeeds; on success the ack id is queued, on a publish failure the `catch`
logs and queues nothing.  Returns the successfully published
`(topic, message)` actions and the ack ids queued for acknowledgement. -/
def processBatchLoop (maxReplayAttempts : ℕ) (now : String) :
    List (ReceivedMessage × Bool) →
      List (Topic × DlqMessage) × List String
  | [] => ([], [])
  | (rm, publishOk) :: rest =>
    let action := processDlqMessage maxReplayAttempts now rm
    let pr := processBatchLoop maxReplayAttempts now rest
    if publishOk then (action :: pr.1, rm.ackId :: pr.2) else pr

/-! ## `src/index.js` — drain loop of `main` -/

/-- The pull loop of `main`, counting performed pulls: starting at pull
index `i` with `fuel` iterations left (`MAX_PULLS - pullCount`), an empty
pull (`pulls i = 0` messages) counts and ends the loop; a non-empty pull
counts and continues. -/
def pullCountFrom (pulls : ℕ → ℕ) (i : ℕ) : ℕ → ℕ
  | 0 => 0
  | fuel + 1 =>
    if pulls i = 0 then 1 else 1 + pullCountFrom pulls (i + 1) fuel

/-- `main` from `src/index.js`, abstracted over the sequence of pull sizes:
returns the number of pull iterations performed and whether the final
`pullCount >= MAX_PULLS` warning was emitted. -/
def mainDrain (maxPulls : ℕ) (pulls : ℕ → ℕ) : ℕ × Bool :=
  let c := pullCountFrom pulls 0 maxPulls
  (c, decide (c ≥ maxPulls))

/-! ## Concrete fixtures used by sanity checks and witnesses -/

/-- A fully valid envelope except that `event_type` is absent. -/
def envMissingEventType : JsValue :=
  .obj [("envelope_version", .num 1), ("schema_version", .num 1),
        ("tenant_id", .str "t1"), ("occurred_at", .str "2024-01-01T00:00:00Z"),
        ("payload", .obj [("call_id", .str "c1")])]

/-- An envelope with all six required fields present and truthy. -/
def envAllPresent : JsValue :=
  .obj [("envelope_version", .num 1), ("event_type", .str "call.metadata"),
        ("schema_version", .num 1), ("tenant_id", .str "t1"),
        ("occurred_at", .str "not-a-date"),
        ("payload", .obj [("call_id", .str "c1")])]

/-- An envelope whose `envelope_version` is present but `0` (falsy). -/
def envZeroVersion : JsValue :=
  .obj [("envelope_version", .num 0), ("event_type", .str "call.metadata"),
        ("schema_version", .num 1), ("tenant_id", .str "t1"),
        ("occurred_at", .str "2024-01-01T00:00:00Z"),
        ("payload", .obj [("call_id", .str "c1")])]

/-- A valid envelope whose payload carries a present-but-empty `call_id`
next to a non-empty `message_id`, and no `trace_id`. -/
def envEmptyCallId : JsValue :=
  .obj [("envelope_version", .num 1), ("event_type", .str "call.metadata"),
        ("schema_version", .num 1), ("tenant_id", .str "t1"),
        ("occurred_at", .str "2024-01-01T00:00:00Z"),
        ("payload", .obj [("call_id", .str ""), ("message_id", .str "m-42")])]

/-- A total-failure write result: a generic error, no row detail. -/
def wrTotal : WriteResult := ⟨false, [⟨"Error", "connection refused", []⟩]⟩

/-- A partial-failure write result over 5 rows: row 1 rejected as
`duplicate`, row 3 as `invalid`, row 4 as `timeout`. -/
def wrPartial : WriteResult :=
  ⟨false, [⟨"PartialFailureError", "partial",
    [⟨1, [⟨"duplicate", "dup"⟩]⟩, ⟨3, [⟨"invalid", "bad"⟩]⟩,
     ⟨4, [⟨"timeout", "slow"⟩]⟩]⟩]⟩

/-- A dead-lettered message carrying no replay counter. -/
def rmFresh : ReceivedMessage :=
  ⟨⟨"ZGF0YQ==", [("foo", "bar")], "mid-1", none⟩, "ack-1"⟩

/-- A dead-lettered message that already carries three replay attempts. -/
def rmExhausted : ReceivedMessage :=
  ⟨⟨"ZGF0YQ==", [("x-replay-attempts", "3")], "mid-2", none⟩, "ack-2"⟩

-- sanity checks of the embedding
example : categorizeError "No idempotency key found"
    = ⟨true, 400, "validation_error"⟩ := by decide
example : categorizeError "boom" = ⟨false, 503, "transient_error"⟩ := by decide
example : validateEnvelope (fun _ => true) envZeroVersion
    = .error "Missing required fields: envelope_version" := by rfl
-- NIST test vector for the digest embedding
example : sha256Hex [97, 98, 99] =
    "ba7816bf8f01cfea414140de5dae2223b00361a396177a9cb410ff61f20015ad" := by
  decide
-- the spec scenario: 5 rows, row 1 "duplicate", row 3 "invalid"
example :
    flushResolutions
      ⟨false, [⟨"PartialFailureError", "partial",
        [⟨1, [⟨"duplicate", "dup"⟩]⟩, ⟨3, [⟨"invalid", "bad"⟩]⟩]⟩]⟩ 5
    = [.success 204, .success 204, .success 204,
       .failure 422 true (some "validation_error"), .success 204] := by
  decide

/-! ## Helper lemmas on the string model -/

theorem hasPref_self (l : List Char) : hasPref l l = true := by
  induction l with
  | nil => rfl
  | cons c cs ih => simp [hasPref, ih]

theorem hasPref_append {l pat : List Char} (l₂ : List Char)
    (h : hasPref l pat = true) : hasPref (l ++ l₂) pat = true := by
  induction pat generalizing l with
  | nil => simp [hasPref]
  | cons p ps ih =>
    cases l with
    | nil => simp [hasPref] at h
    | cons c cs =>
      simp only [hasPref, Bool.and_eq_true] at h
      simp only [List.cons_append, hasPref, Bool.and_eq_true]
      exact ⟨h.1, ih h.2⟩

theorem subAt_of_hasPref {s pat : List Char} (h : hasPref s pat = true) :
    subAt s pat = true := by
  cases s with
  | nil =>
    cases pat with
    | nil => rfl
    | cons p ps => simp [hasPref] at h
  | cons c cs => simp [subAt, h]

theorem subAt_append_right (l : List Char) {l₂ pat : List Char}
    (h : subAt l₂ pat = true) : subAt (l ++ l₂) pat = true := by
  induction l with
  | nil => simpa using h
  | cons c cs ih => simp [subAt, ih]

theorem toList_append (a b : String) :
    (a ++ b).toList = a.toList ++ b.toList := by
  simp [String.toList, String.data_append]

theorem strIncludes_of_pref {a : String} (b : String) {pat : String}
    (h : hasPref a.toList pat.toList = true) :
    strIncludes (a ++ b) pat = true := by
  unfold strIncludes
  rw [toList_append]
  exact subAt_of_hasPref (hasPref_append _ h)

theorem strIncludes_right (a : String) {b pat : String}
    (h : strIncludes b pat = true) : strIncludes (a ++ b) pat = true := by
  unfold strIncludes at h ⊢
  rw [toList_append]
  exact subAt_append_right _ h

theorem strIncludes_self {s : String} : strIncludes s s = true :=
  subAt_of_hasPref (hasPref_self _)

theorem strIncludes_joinComma {f : String} {l : List String} (h : f ∈ l) :
    strIncludes (joinComma l) f = true := by
  induction l with
  | nil => cases h
  | cons a rest ih =>
    rcases List.mem_cons.mp h with rfl | hmem
    · cases rest with
      | nil => exact strIncludes_self
      | cons b bs =>
        show strIncludes ((f ++ ", ") ++ joinComma (b :: bs)) f = true
        refine strIncludes_of_pref _ ?_
        rw [toList_append]
        exact hasPref_append _ (hasPref_self _)
    · cases rest with
      | nil => cases hmem
      | cons b bs =>
        show strIncludes ((a ++ ", ") ++ joinComma (b :: bs)) f = true
        exact strIncludes_right _ (ih hmem)

theorem lowerList_append (a b : List Char) :
    lowerList (a ++ b) = lowerList a ++ lowerList b := by
  simp [lowerList]

/-- The message built by the missing-field branch always matches the
`'missing required fields'` pattern of `categorizeError`. -/
theorem includesLower_missingMsg (rest : String) :
    includesLower ("Missing required fields: " ++ rest)
      "missing required fields" = true := by
  unfold includesLower
  rw [toList_append, lowerList_append]
  have h2 : lowerList "Missing required fields: ".toList
      = "missing required fields: ".toList := by decide
  rw [h2]
  exact subAt_of_hasPref (hasPref_append _ (by decide))

/-! ## Claim C5 — deterministic sampling -/

/-- C5: `shouldSample` returns `true` whenever the rate is at least `1.0` and
`false` whenever it is at most `0.0`; and the decision is a pure function of
the SHA-256 digest of the key and the rate, so for a fixed key and rate every
call returns the identical decision. -/
theorem c5_shouldSample_pure_and_bounded :
    ∀ (key : List ℕ) (rate : ℚ),
      (1 ≤ rate → shouldSample key rate = true) ∧
      (rate ≤ 0 → shouldSample key rate = false) ∧
      (∀ key₂ : List ℕ, sha256Hex key = sha256Hex key₂ →
        shouldSample key rate = shouldSample key₂ rate) := by
  intro key rate
  refine ⟨fun h => ?_, fun h => ?_, fun key₂ h => ?_⟩
  · simp [shouldSample, ge_iff_le, h]
  · have h1 : ¬(rate ≥ 1) := by
      intro hc
      linarith
    simp [shouldSample, h1, h]
  · simp only [shouldSample, h]

theorem c5_shouldSample_witness :
    shouldSample [107] 1 = true ∧ shouldSample [107] 0 = false ∧
    shouldSample [107] (1 / 2) = shouldSample [107] (1 / 2) :=
  ⟨(c5_shouldSample_pure_and_bounded [107] 1).1 (by norm_num),
   (c5_shouldSample_pure_and_bounded [107] 0).2.1 (by norm_num),
   (c5_shouldSample_pure_and_bounded [107] (1 / 2)).2.2 [107] rfl⟩

/-! ## Claim C8 — drain loop termination -/

theorem pullCountFrom_le (pulls : ℕ → ℕ) :
    ∀ fuel i, pullCountFrom pulls i fuel ≤ fuel := by
  intro fuel
  induction fuel with
  | zero => intro i; simp [pullCountFrom]
  | succ n ih =>
    intro i
    simp only [pullCountFrom]
    split
    · omega
    · have := ih (i + 1)
      omega

theorem pullCountFrom_full {pulls : ℕ → ℕ} (h : ∀ i, 0 < pulls i) :
    ∀ fuel i, pullCountFrom pulls i fuel = fuel := by
  intro fuel
  induction fuel with
  | zero => intro i; rfl
  | succ n ih =>
    intro i
    have hne : pulls i ≠ 0 := Nat.pos_iff_ne_zero.mp (h i)
    simp [pullCountFrom, hne, ih (i + 1)]
    omega

/-- C8: the replay drain loop terminates on every run — a first empty pull
ends the loop after exactly that one pull; a source that never runs empty
makes the loop stop after exactly `maxPulls` pull iterations with the
cap-hit warning emitted; and the number of pulls never exceeds `maxPulls`. -/
theorem c8_drain_loop_terminates :
    ∀ (maxPulls : ℕ) (pulls : ℕ → ℕ),
      (mainDrain maxPulls pulls).1 ≤ maxPulls ∧
      (pulls 0 = 0 → 0 < maxPulls → (mainDrain maxPulls pulls).1 = 1) ∧
      ((∀ i, 0 < pulls i) → (mainDrain maxPulls pulls).1 = maxPulls ∧
        (mainDrain maxPulls pulls).2 = true) := by
  intro maxPulls pulls
  refine ⟨pullCountFrom_le pulls maxPulls 0, fun h0 hpos => ?_, fun hall => ?_⟩
  · cases maxPulls with
    | zero => omega
    | succ n => simp [mainDrain, pullCountFrom, h0]
  · constructor
    · simp [mainDrain, pullCountFrom_full hall maxPulls 0]
    · simp [mainDrain, pullCountFrom_full hall maxPulls 0]

theorem c8_drain_loop_witness :
    (mainDrain 3 (fun _ => 0)).1 = 1 ∧ (mainDrain 3 (fun _ => 5)).1 = 3 ∧
    (mainDrain 3 (fun _ => 5)).2 = true :=
  ⟨(c8_drain_loop_terminates 3 (fun _ => 0)).2.1 rfl (by decide),
   ((c8_drain_loop_terminates 3 (fun _ => 5)).2.2 (fun _ => by decide)).1,
   ((c8_drain_loop_terminates 3 (fun _ => 5)).2.2 (fun _ => by decide)).2⟩

/-! ## Claims C6 and C10 — envelope validation -/

theorem validateEnvelope_missing_branch {dateOk : JsValue → Bool}
    {envelope : JsValue}
    (h : 0 < (requiredFields.filter (fun g => ! fieldTruthy envelope g)).length) :
    validateEnvelope dateOk envelope = .error ("Missing required fields: "
      ++ joinComma (requiredFields.filter (fun g => ! fieldTruthy envelope g))) := by
  simp only [validateEnvelope]
  rw [if_pos h]

theorem validateEnvelope_timestamp_branch {dateOk : JsValue → Bool}
    {envelope : JsValue}
    (h : requiredFields.filter (fun g => ! fieldTruthy envelope g) = [])
    (hd : dateOk ((envelope.getField "occurred_at").getD .null) = false) :
    validateEnvelope dateOk envelope
      = .error "occurred_at must be a valid ISO date string" := by
  simp [validateEnvelope, h, hd]

/-- C6: a required field absent from the envelope makes validation fail with
an error message that names that field (and every other missing one), and an
envelope passing the required-field check whose `occurred_at` does not parse
as a date fails with the timestamp-specific error. -/
theorem c6_validateEnvelope_failures :
    ∀ (dateOk : JsValue → Bool) (envelope : JsValue),
      (∀ f ∈ requiredFields, envelope.getField f = none →
        ∃ msg, validateEnvelope dateOk envelope = .error msg ∧
          strIncludes msg "Missing required fields" = true ∧
          strIncludes msg f = true) ∧
      ((∀ f ∈ requiredFields, fieldTruthy envelope f = true) →
        dateOk ((envelope.getField "occurred_at").getD .null) = false →
        validateEnvelope dateOk envelope
          = .error "occurred_at must be a valid ISO date string") := by
  intro dateOk envelope
  constructor
  · intro f hf habs
    have hft : fieldTruthy envelope f = false := by simp [fieldTruthy, habs]
    have hmem : f ∈ requiredFields.filter (fun g => ! fieldTruthy envelope g) :=
      List.mem_filter.mpr ⟨hf, by simp [hft]⟩
    have hlen :
        0 < (requiredFields.filter (fun g => ! fieldTruthy envelope g)).length :=
      List.length_pos.mpr (List.ne_nil_of_mem hmem)
    refine ⟨_, validateEnvelope_missing_branch hlen, ?_, ?_⟩
    · exact strIncludes_of_pref _ (by decide)
    · exact strIncludes_right _ (strIncludes_joinComma hmem)
  · intro hall hd
    have hfil : requiredFields.filter (fun g => ! fieldTruthy envelope g) = [] := by
      rw [List.filter_eq_nil_iff]
      intro g hg
      simp [hall g hg]
    exact validateEnvelope_timestamp_branch hfil hd

theorem c6_validateEnvelope_witness :
    (∃ msg, validateEnvelope (fun _ => true) envMissingEventType = .error msg ∧
      strIncludes msg "Missing required fields" = true ∧
      strIncludes msg "event_type" = true) ∧
    validateEnvelope (fun _ => false) envAllPresent
      = .error "occurred_at must be a valid ISO date string" :=
  ⟨(c6_validateEnvelope_failures (fun _ => true) envMissingEventType).1
      "event_type" (by decide) rfl,
   (c6_validateEnvelope_failures (fun _ => false) envAllPresent).2
      (by decide) rfl⟩

/-- C10: a required field that is present but carries a falsy value (the
number `0`, the empty string, `false`, or `null`) is reported as missing,
because presence is tested with JS truthiness; in particular an envelope with
`envelope_version = 0` fails with `'Missing required fields:
envelope_version'`. -/
theorem c10_falsy_field_reported_missing :
    ∀ (dateOk : JsValue → Bool) (envelope : JsValue) (f : String) (v : JsValue),
      (f ∈ requiredFields → envelope.getField f = some v → v.truthy = false →
        ∃ msg, validateEnvelope dateOk envelope = .error msg ∧
          strIncludes msg f = true) ∧
      validateEnvelope dateOk envZeroVersion
        = .error "Missing required fields: envelope_version" := by
  intro dateOk envelope f v
  constructor
  · intro hf hsome htr
    have hft : fieldTruthy envelope f = false := by simp [fieldTruthy, hsome, htr]
    have hmem : f ∈ requiredFields.filter (fun g => ! fieldTruthy envelope g) :=
      List.mem_filter.mpr ⟨hf, by simp [hft]⟩
    have hlen :
        0 < (requiredFields.filter (fun g => ! fieldTruthy envelope g)).length :=
      List.length_pos.mpr (List.ne_nil_of_mem hmem)
    exact ⟨_, validateEnvelope_missing_branch hlen,
      strIncludes_right _ (strIncludes_joinComma hmem)⟩
  · rfl

theorem c10_falsy_field_witness :
    ∃ msg, validateEnvelope (fun _ => true) envZeroVersion = .error msg ∧
      strIncludes msg "envelope_version" = true :=
  (c10_falsy_field_reported_missing (fun _ => true) envZeroVersion
    "envelope_version" (.num 0)).1 (by decide) rfl (by decide)

/-! ## Claim C7 — idempotency key derivation -/

/-- C7, counterexample: in `envEmptyCallId` the payload's `call_id` is
present (with value `""`), yet the derived key is the `message_id` value
`"m-42"`, not the present `call_id` — presence alone does not select the
key, truthiness does. -/
theorem c7_counterexample :
    ((envEmptyCallId.getField "payload").getD .null).getField "call_id"
      = some (.str "") ∧
    computeIdempotencyKey envEmptyCallId = .ok (.str "m-42") ∧
    computeIdempotencyKey envEmptyCallId ≠ .ok (.str "") := by
  refine ⟨rfl, rfl, fun h => ?_⟩
  have h2 : (Except.ok (JsValue.str "m-42") : Except String JsValue)
      = .ok (.str "") := by
    rw [← h]
    rfl
  injection h2 with h3
  injection h3 with h4
  exact absurd h4 (by decide)

/-- C7 (amended): the derived idempotency key is `payload.call_id` when
present *and truthy*, otherwise `payload.message_id` when present and truthy,
otherwise `trace_id` when present and truthy; when none of the three is
truthy — in particular when all three are absent — derivation fails with
`'No idempotency key found'`, which `categorizeError` classifies as a
terminal (400) validation error, not a transient one. -/
theorem c7_key_priority_truthiness :
    ∀ (envelope payload : JsValue),
      envelope.getField "payload" = some payload →
      (∀ v, payload.getField "call_id" = some v → v.truthy = true →
        computeIdempotencyKey envelope = .ok v) ∧
      (truthyOpt (payload.getField "call_id") = false →
        ∀ v, payload.getField "message_id" = some v → v.truthy = true →
          computeIdempotencyKey envelope = .ok v) ∧
      (truthyOpt (payload.getField "call_id") = false →
        truthyOpt (payload.getField "message_id") = false →
        ∀ v, envelope.getField "trace_id" = some v → v.truthy = true →
          computeIdempotencyKey envelope = .ok v) ∧
      (truthyOpt (payload.getField "call_id") = false →
        truthyOpt (payload.getField "message_id") = false →
        truthyOpt (envelope.getField "trace_id") = false →
        computeIdempotencyKey envelope = .error "No idempotency key found" ∧
        categorizeError "No idempotency key found"
          = ⟨true, 400, "validation_error"⟩) := by
  intro envelope payload hp
  have hpd : (envelope.getField "payload").getD .null = payload := by
    rw [hp]
    rfl
  refine ⟨fun v hv htr => ?_, fun hc v hv htr => ?_,
    fun hc hm v hv htr => ?_, fun hc hm ht => ⟨?_, by decide⟩⟩
  · simp [computeIdempotencyKey, hpd, hv, jsOr, htr]
  · cases hcall : payload.getField "call_id" with
    | none => simp [computeIdempotencyKey, hpd, hcall, hv, jsOr, htr]
    | some w =>
      rw [hcall] at hc
      simp only [truthyOpt] at hc
      simp [computeIdempotencyKey, hpd, hcall, hv, jsOr, hc, htr]
  · cases hcall : payload.getField "call_id" with
    | none =>
      cases hmsg : payload.getField "message_id" with
      | none => simp [computeIdempotencyKey, hpd, hcall, hmsg, hv, jsOr, htr]
      | some w =>
        rw [hmsg] at hm
        simp only [truthyOpt] at hm
        simp [computeIdempotencyKey, hpd, hcall, hmsg, hv, jsOr, hm, htr]
    | some w =>
      rw [hcall] at hc
      simp only [truthyOpt] at hc
      cases hmsg : payload.getField "message_id" with
      | none => simp [computeIdempotencyKey, hpd, hcall, hmsg, hv, jsOr, hc, htr]
      | some u =>
        rw [hmsg] at hm
        simp only [truthyOpt] at hm
        simp [computeIdempotencyKey, hpd, hcall, hmsg, hv, jsOr, hc, hm, htr]
  · cases hcall : payload.getField "call_id" with
    | none =>
      cases hmsg : payload.getField "message_id" with
      | none =>
        cases htrace : envelope.getField "trace_id" with
        | none => simp [computeIdempotencyKey, hpd, hcall, hmsg, htrace, jsOr]
        | some u =>
          rw [htrace] at ht
          simp only [truthyOpt] at ht
          simp [computeIdempotencyKey, hpd, hcall, hmsg, htrace, jsOr, ht]
      | some w =>
        rw [hmsg] at hm
        simp only [truthyOpt] at hm
        cases htrace : envelope.getField "trace_id" with
        | none => simp [computeIdempotencyKey, hpd, hcall, hmsg, htrace, jsOr, hm]
        | some u =>
          rw [htrace] at ht
          simp only [truthyOpt] at ht
          simp [computeIdempotencyKey, hpd, hcall, hmsg, htrace, jsOr, hm, ht]
    | some w =>
      rw [hcall] at hc
      simp only [truthyOpt] at hc
      cases hmsg : payload.getField "message_id" with
      | none =>
        cases htrace : envelope.getField "trace_id" with
        | none => simp [computeIdempotencyKey, hpd, hcall, hmsg, htrace, jsOr, hc]
        | some u =>
          rw [htrace] at ht
          simp only [truthyOpt] at ht
          simp [computeIdempotencyKey, hpd, hcall, hmsg, htrace, jsOr, hc, ht]
      | some u =>
        rw [hmsg] at hm
        simp only [truthyOpt] at hm
        cases htrace : envelope.getField "trace_id" with
        | none =>
          simp [computeIdempotencyKey, hpd, hcall, hmsg, htrace, jsOr, hc, hm]
        | some z =>
          rw [htrace] at ht
          simp only [truthyOpt] at ht
          simp [computeIdempotencyKey, hpd, hcall, hmsg, htrace, jsOr, hc, hm, ht]

theorem c7_key_priority_witness :
    computeIdempotencyKey envEmptyCallId = .ok (.str "m-42") ∧
    computeIdempotencyKey envAllPresent = .ok (.str "c1") :=
  ⟨((c7_key_priority_truthiness envEmptyCallId
        (.obj [("call_id", .str ""), ("message_id", .str "m-42")]) rfl).2.1
      (by decide) (.str "m-42") rfl (by decide)),
   ((c7_key_priority_truthiness envAllPresent
        (.obj [("call_id", .str "c1")]) rfl).1 (.str "c1") rfl (by decide))⟩

/-! ## Claim C1 — sink write outcome classification -/

theorem mapBqErrorReason_default {reason : String}
    (h1 : reason ≠ "duplicate") (h2 : reason ≠ "invalid") :
    mapBqErrorReason reason = ⟨false, 503, "transient_error"⟩ := by
  unfold mapBqErrorReason
  split <;> simp_all

/-- Under the claim's partial-failure shape (every listed row carries a
reason) the stored map value is never `undefined`. -/
theorem rowDetail_ne_undef {entries : List RowErrorEntry}
    (h : ∀ e ∈ entries, e.errors ≠ []) (k : ℕ) :
    rowDetail entries k ≠ some none := by
  unfold rowDetail
  intro hc
  rcases Option.map_eq_some'.mp hc with ⟨e, hfind, hhead⟩
  have hmem : e ∈ entries := List.mem_reverse.mp (List.mem_of_find?_eq_some hfind)
  exact h e hmem (List.head?_eq_none_iff.mp hhead)

theorem perRowLoop_getElem {entries : List RowErrorEntry}
    (h : ∀ e ∈ entries, e.errors ≠ []) :
    ∀ (n i j : ℕ), j < n →
      (perRowLoop entries i n)[j]? =
        some (match rowDetail entries (i + j) with
              | none => Resolution.success 204
              | some (some r) => rowFailureRes r
              | some none => .failure 500 false none) := by
  intro n
  induction n with
  | zero => intro i j hj; omega
  | succ m ih =>
    intro i j hj
    cases hd : rowDetail entries i with
    | none =>
      cases j with
      | zero => simp [perRowLoop, hd]
      | succ k =>
        have := ih (i + 1) k (by omega)
        simp only [perRowLoop, hd, List.getElem?_cons_succ]
        rw [this]
        have harith : i + 1 + k = i + (k + 1) := by omega
        rw [harith]
    | some o =>
      cases o with
      | none => exact absurd hd (rowDetail_ne_undef h i)
      | some r =>
        cases j with
        | zero => simp [perRowLoop, hd]
        | succ k =>
          have := ih (i + 1) k (by omega)
          simp only [perRowLoop, hd, List.getElem?_cons_succ]
          rw [this]
          have harith : i + 1 + k = i + (k + 1) := by omega
          rw [harith]

/-- C1: for every flushed batch of `n` items, if the sink call fails with no
row-level detail every item resolves the transient `503` failure; if the
sink reports a `PartialFailureError` listing rejected rows with reasons,
every row not listed resolves success `204`, a listed `'duplicate'` row
resolves success `204`, a listed `'invalid'` row resolves the terminal `422`
rejection, and a listed row with any other reason resolves the transient
`503` failure; and `mapBqErrorReason` is total, mapping every unrecognized
reason to the transient category. -/
theorem c1_flush_outcome_classification :
    ∀ (writeResult : WriteResult) (n : ℕ),
      (writeResult.success = false → ∀ e, writeResult.errors.head? = some e →
        (e.name ≠ "PartialFailureError" ∨ e.errors = []) →
        flushResolutions writeResult n
          = List.replicate n (.failure 503 false none)) ∧
      (writeResult.success = false → ∀ e, writeResult.errors.head? = some e →
        e.name = "PartialFailureError" → (∀ re ∈ e.errors, re.errors ≠ []) →
        0 < e.errors.length →
        ∀ j, j < n →
          (rowDetail e.errors j = none →
            (flushResolutions writeResult n)[j]? = some (.success 204)) ∧
          (∀ r, rowDetail e.errors j = some (some r) →
            (r.reason = "duplicate" →
              (flushResolutions writeResult n)[j]? = some (.success 204)) ∧
            (r.reason = "invalid" →
              (flushResolutions writeResult n)[j]?
                = some (.failure 422 true (some "validation_error"))) ∧
            (r.reason ≠ "duplicate" → r.reason ≠ "invalid" →
              (flushResolutions writeResult n)[j]?
                = some (.failure 503 false (some "transient_error"))))) ∧
      (∀ reason, reason ≠ "duplicate" → reason ≠ "invalid" →
        mapBqErrorReason reason = ⟨false, 503, "transient_error"⟩) := by
  intro writeResult n
  refine ⟨fun hs e he hdis => ?_, fun hs e he hname hre hlen j hj => ?_,
    fun reason h1 h2 => mapBqErrorReason_default h1 h2⟩
  · rcases hdis with hn | hz
    · simp [flushResolutions, hs, he, hn]
    · simp [flushResolutions, hs, he, hz]
  · have hflush : flushResolutions writeResult n = perRowLoop e.errors 0 n := by
      simp [flushResolutions, hs, he, hname, hlen]
    have hrow := perRowLoop_getElem hre n 0 j hj
    rw [Nat.zero_add] at hrow
    constructor
    · intro hd
      rw [hflush, hrow, hd]
    · intro r hd
      refine ⟨fun hdup => ?_, fun hinv => ?_, fun h1 h2 => ?_⟩
      · rw [hflush, hrow, hd]
        simp [rowFailureRes, hdup, mapBqErrorReason]
      · rw [hflush, hrow, hd]
        simp [rowFailureRes, hinv, mapBqErrorReason]
      · rw [hflush, hrow, hd]
        simp [rowFailureRes, mapBqErrorReason_default h1 h2]

theorem c1_flush_outcome_witness :
    flushResolutions wrTotal 2 = List.replicate 2 (.failure 503 false none) ∧
    (flushResolutions wrPartial 5)[0]? = some (.success 204) ∧
    (flushResolutions wrPartial 5)[1]? = some (.success 204) ∧
    (flushResolutions wrPartial 5)[3]?
      = some (.failure 422 true (some "validation_error")) ∧
    (flushResolutions wrPartial 5)[4]?
      = some (.failure 503 false (some "transient_error")) ∧
    mapBqErrorReason "stopped" = ⟨false, 503, "transient_error"⟩ :=
  ⟨(c1_flush_outcome_classification wrTotal 2).1 rfl _ rfl (.inl (by decide)),
   (((c1_flush_outcome_classification wrPartial 5).2.1 rfl _ rfl rfl
      (by decide) (by decide) 0 (by decide)).1 (by decide)),
   (((c1_flush_outcome_classification wrPartial 5).2.1 rfl _ rfl rfl
      (by decide) (by decide) 1 (by decide)).2 ⟨"duplicate", "dup"⟩
      (by decide)).1 rfl,
   (((c1_flush_outcome_classification wrPartial 5).2.1 rfl _ rfl rfl
      (by decide) (by decide) 3 (by decide)).2 ⟨"invalid", "bad"⟩
      (by decide)).2.1 rfl,
   (((c1_flush_outcome_classification wrPartial 5).2.1 rfl _ rfl rfl
      (by decide) (by decide) 4 (by decide)).2 ⟨"timeout", "slow"⟩
      (by decide)).2.2 (by decide) (by decide),
   (c1_flush_outcome_classification wrPartial 5).2.2 "stopped" (by decide)
      (by decide)⟩

/-! ## Claim C2 — replay escalation and acknowledgement gating -/

theorem find?_key_append {l : List (String × String)} {k : String} (v : String)
    (h : ∀ p ∈ l, p.1 ≠ k) :
    (((l ++ [(k, v)]).find? (fun kv => kv.1 == k)).map (·.2)) = some v := by
  induction l with
  | nil => simp
  | cons p ps ih =>
    have hp : (p.1 == k) = false :=
      beq_eq_false_iff_ne.mpr (h p (List.mem_cons_self p ps))
    rw [List.cons_append, List.find?_cons_of_neg _ (by simp [hp])]
    exact ih (fun q hq => h q (List.mem_cons_of_mem p hq))

theorem attrLookup_setAttr_same (l : List (String × String)) (k v : String) :
    attrLookup (setAttr l k v) k = some v := by
  unfold attrLookup setAttr
  refine find?_key_append v (fun p hp => ?_)
  have := List.of_mem_filter hp
  simpa using this

theorem attrLookup_setAttr_ne {k' k : String} (l : List (String × String))
    (v : String) (h : k' ≠ k) :
    attrLookup (setAttr l k v) k'
      = attrLookup (l.filter (fun kv => kv.1 != k)) k' := by
  unfold attrLookup setAttr
  rw [List.find?_append]
  cases hf : (l.filter (fun kv => kv.1 != k)).find? (fun kv => kv.1 == k') with
  | some p => simp [hf]
  | none =>
    have hkk : (k == k') = false := beq_eq_false_iff_ne.mpr (Ne.symm h)
    simp [hf, hkk]

theorem attrLookup_filter_of_keep {l : List (String × String)}
    {p : String × String → Bool} {k : String}
    (h : ∀ kv, kv.1 = k → p kv = true) :
    attrLookup (l.filter p) k = attrLookup l k := by
  unfold attrLookup
  induction l with
  | nil => rfl
  | cons q qs ih =>
    by_cases hq : q.1 = k
    · rw [List.filter_cons_of_pos (h q hq)]
      rw [List.find?_cons_of_pos _ (by simp [hq]),
        List.find?_cons_of_pos _ (by simp [hq])]
    · have hqk : (q.1 == k) = false := beq_eq_false_iff_ne.mpr hq
      cases hpq : p q with
      | true =>
        rw [List.filter_cons_of_pos hpq]
        rw [List.find?_cons_of_neg _ (by simp [hqk]),
          List.find?_cons_of_neg _ (by simp [hqk])]
        exact ih
      | false =>
        rw [List.filter_cons_of_neg (by simp [hpq])]
        rw [ih, List.find?_cons_of_neg _ (by simp [hqk])]

theorem attrLookup_eq_none {l : List (String × String)} {k : String}
    (h : ∀ kv ∈ l, kv.1 ≠ k) : attrLookup l k = none := by
  unfold attrLookup
  rw [List.find?_eq_none.mpr (fun x hx => by simpa using h x hx)]
  rfl

theorem mem_setAttr {kv : String × String} {l : List (String × String)}
    {k v : String} (h : kv ∈ setAttr l k v) : kv ∈ l ∨ kv = (k, v) := by
  unfold setAttr at h
  rcases List.mem_append.mp h with h1 | h1
  · exact .inl (List.mem_of_mem_filter h1)
  · simp only [List.mem_singleton] at h1
    exact .inr h1

theorem reconstructMessage_replay_attr {maxR : ℕ} {now : String}
    {m : DlqMessage} {a : ℕ} (hcur : currentAttempts m = some a) :
    attrLookup (reconstructMessage maxR now m false).attributes
      "x-replay-attempts" = some (toString (a + 1)) := by
  simp only [reconstructMessage, hcur, Option.map_some', Bool.false_eq_true,
    if_false]
  exact attrLookup_setAttr_same _ _ _

theorem reconstructMessage_parked_attrs {maxR : ℕ} {now : String}
    {m : DlqMessage} {a : ℕ} (hcur : currentAttempts m = some a) :
    attrLookup (reconstructMessage maxR now m true).attributes
      "x-final-attempt-count" = some (toString (a + 1)) ∧
    attrLookup (reconstructMessage maxR now m true).attributes
      "x-parked-reason"
      = some ("Exceeded max replay attempts (" ++ toString maxR ++ ")") ∧
    attrLookup (reconstructMessage maxR now m true).attributes
      "x-replay-attempts" = none := by
  refine ⟨?_, ?_, ?_⟩
  · simp only [reconstructMessage, hcur, Option.map_some', if_true]
    exact attrLookup_setAttr_same _ _ _
  · simp only [reconstructMessage, hcur, Option.map_some', if_true]
    rw [attrLookup_setAttr_ne _ _ (by decide)]
    rw [attrLookup_filter_of_keep (fun kv hkv => by rw [hkv]; decide)]
    exact attrLookup_setAttr_same _ _ _
  · simp only [reconstructMessage, hcur, Option.map_some', if_true]
    apply attrLookup_eq_none
    intro kv hkv
    rcases mem_setAttr hkv with h1 | rfl
    · rcases mem_setAttr h1 with h2 | rfl
      · rcases mem_setAttr h2 with h3 | rfl
        · rcases mem_setAttr h3 with h4 | rfl
          · have := List.of_mem_filter h4
            simp only [Bool.and_eq_true, bne_iff_ne] at this
            exact this.2
          · simp
        · simp
      · simp
    · simp

/-- C2: a dead-lettered message whose `x-replay-attempts` attribute is
absent (counting as 0) or below `maxReplayAttempts` is republished to the
main topic with the counter incremented by one (`1` on a first replay); a
message whose counter has reached `maxReplayAttempts` is published to the
parking destination instead (counter stripped, parked reason and final
count stamped); and an ack id is queued against the dead-letter
subscription exactly for the messages whose publish call succeeded. -/
theorem c2_replay_escalation :
    ∀ (maxReplayAttempts : ℕ) (now : String) (rm : ReceivedMessage),
      (attrLookup rm.message.attributes "x-replay-attempts" = none →
        0 < maxReplayAttempts →
        (processDlqMessage maxReplayAttempts now rm).1 = .main ∧
        attrLookup (processDlqMessage maxReplayAttempts now rm).2.attributes
          "x-replay-attempts" = some "1") ∧
      (∀ (s : String) (a : ℕ),
        attrLookup rm.message.attributes "x-replay-attempts" = some s →
        s ≠ "" → jsParseInt s = some a → a < maxReplayAttempts →
        (processDlqMessage maxReplayAttempts now rm).1 = .main ∧
        attrLookup (processDlqMessage maxReplayAttempts now rm).2.attributes
          "x-replay-attempts" = some (toString (a + 1))) ∧
      (∀ (s : String) (a : ℕ),
        attrLookup rm.message.attributes "x-replay-attempts" = some s →
        s ≠ "" → jsParseInt s = some a → maxReplayAttempts ≤ a →
        (processDlqMessage maxReplayAttempts now rm).1 = .parking ∧
        attrLookup (processDlqMessage maxReplayAttempts now rm).2.attributes
          "x-replay-attempts" = none ∧
        attrLookup (processDlqMessage maxReplayAttempts now rm).2.attributes
          "x-final-attempt-count" = some (toString (a + 1)) ∧
        attrLookup (processDlqMessage maxReplayAttempts now rm).2.attributes
          "x-parked-reason" = some ("Exceeded max replay attempts ("
            ++ toString maxReplayAttempts ++ ")")) ∧
      (∀ (batch : List (ReceivedMessage × Bool)) (p : ReceivedMessage × Bool),
        p ∈ batch → p.2 = true →
        p.1.ackId ∈ (processBatchLoop maxReplayAttempts now batch).2) ∧
      (∀ (batch : List (ReceivedMessage × Bool)) (aid : String),
        aid ∈ (processBatchLoop maxReplayAttempts now batch).2 →
        ∃ q ∈ batch, q.2 = true ∧ q.1.ackId = aid) := by
  intro maxR now rm
  refine ⟨fun habs hpos => ?_, fun s a hs hne hparse hlt => ?_,
    fun s a hs hne hparse hge => ?_, ?_, ?_⟩
  · have hcur : currentAttempts rm.message = some 0 := by
      simp only [currentAttempts, habs]
      decide
    have hr : attemptsReached (currentAttempts rm.message) maxR = false := by
      rw [hcur]
      simp only [attemptsReached, decide_eq_false_iff_not]
      omega
    have hsel : processDlqMessage maxR now rm
        = (.main, reconstructMessage maxR now rm.message false) := by
      simp [processDlqMessage, hr]
    rw [hsel]
    exact ⟨rfl, (reconstructMessage_replay_attr hcur).trans (by decide)⟩
  · have hcur : currentAttempts rm.message = some a := by
      simp only [currentAttempts, hs, if_neg hne]
      exact hparse
    have hr : attemptsReached (currentAttempts rm.message) maxR = false := by
      rw [hcur]
      simp only [attemptsReached, decide_eq_false_iff_not]
      omega
    have hsel : processDlqMessage maxR now rm
        = (.main, reconstructMessage maxR now rm.message false) := by
      simp [processDlqMessage, hr]
    rw [hsel]
    exact ⟨rfl, reconstructMessage_replay_attr hcur⟩
  · have hcur : currentAttempts rm.message = some a := by
      simp only [currentAttempts, hs, if_neg hne]
      exact hparse
    have hr : attemptsReached (currentAttempts rm.message) maxR = true := by
      rw [hcur]
      simp only [attemptsReached, decide_eq_true_eq]
      omega
    have hsel : processDlqMessage maxR now rm
        = (.parking, reconstructMessage maxR now rm.message true) := by
      simp [processDlqMessage, hr]
    rw [hsel]
    obtain ⟨h1, h2, h3⟩ :=
      @reconstructMessage_parked_attrs maxR now rm.message a hcur
    exact ⟨rfl, h3, h1, h2⟩
  · intro batch
    induction batch with
    | nil => intro p hp _; cases hp
    | cons q qs ih =>
      intro p hp hps
      obtain ⟨rm1, ok⟩ := q
      rcases List.mem_cons.mp hp with rfl | hmem
      · simp only at hps
        subst hps
        simp [processBatchLoop]
      · cases ok with
        | false =>
          simpa [processBatchLoop] using ih p hmem hps
        | true =>
          have := ih p hmem hps
          simp only [processBatchLoop, if_true]
          exact List.mem_cons_of_mem _ this
  · intro batch
    induction batch with
    | nil => intro aid h; simp [processBatchLoop] at h
    | cons q qs ih =>
      intro aid h
      obtain ⟨rm1, ok⟩ := q
      cases ok with
      | false =>
        simp only [processBatchLoop, Bool.false_eq_true, if_false] at h
        obtain ⟨q, hq, h2, h3⟩ := ih aid h
        exact ⟨q, List.mem_cons_of_mem _ hq, h2, h3⟩
      | true =>
        simp only [processBatchLoop, if_true, List.mem_cons] at h
        rcases h with rfl | h
        · exact ⟨(rm1, true), List.mem_cons_self _ _, rfl, rfl⟩
        · obtain ⟨q, hq, h2, h3⟩ := ih aid h
          exact ⟨q, List.mem_cons_of_mem _ hq, h2, h3⟩

theorem c2_replay_witness :
    ((processDlqMessage 3 "2024-02-01T00:00:00Z" rmFresh).1 = .main ∧
      attrLookup (processDlqMessage 3 "2024-02-01T00:00:00Z" rmFresh).2.attributes
        "x-replay-attempts" = some "1") ∧
    ((processDlqMessage 3 "2024-02-01T00:00:00Z" rmExhausted).1 = .parking ∧
      attrLookup
        (processDlqMessage 3 "2024-02-01T00:00:00Z" rmExhausted).2.attributes
        "x-replay-attempts" = none ∧
      attrLookup
        (processDlqMessage 3 "2024-02-01T00:00:00Z" rmExhausted).2.attributes
        "x-final-attempt-count" = some (toString (3 + 1)) ∧
      attrLookup
        (processDlqMessage 3 "2024-02-01T00:00:00Z" rmExhausted).2.attributes
        "x-parked-reason" = some ("Exceeded max replay attempts ("
          ++ toString 3 ++ ")")) ∧
    "ack-1" ∈ (processBatchLoop 3 "2024-02-01T00:00:00Z"
      [(rmFresh, true), (rmExhausted, false)]).2 ∧
    (∃ q ∈ [(rmFresh, true), (rmExhausted, false)],
      q.2 = true ∧ q.1.ackId = "ack-1") :=
  ⟨(c2_replay_escalation 3 "2024-02-01T00:00:00Z" rmFresh).1 rfl (by decide),
   (c2_replay_escalation 3 "2024-02-01T00:00:00Z" rmExhausted).2.2.1 "3" 3
      rfl (by decide) (by decide) (by decide),
   (c2_replay_escalation 3 "2024-02-01T00:00:00Z" rmFresh).2.2.2.1
      [(rmFresh, true), (rmExhausted, false)] (rmFresh, true)
      (List.mem_cons_self _ _) rfl,
   (c2_replay_escalation 3 "2024-02-01T00:00:00Z" rmFresh).2.2.2.2
      [(rmFresh, true), (rmExhausted, false)] "ack-1" (by decide)⟩

/-! ## Claim C3 — ingestion entry point status contract -/

theorem categorizeError_status (msg : String) :
    (categorizeError msg).statusCode = 400 ∨
    (categorizeError msg).statusCode = 422 ∨
    (categorizeError msg).statusCode = 503 := by
  unfold categorizeError
  split
  · exact .inl rfl
  · split
    · exact .inr (.inl rfl)
    · exact .inr (.inr rfl)

theorem validateEnvelope_error_shape {dateOk : JsValue → Bool}
    {envelope : JsValue} {msg : String}
    (h : validateEnvelope dateOk envelope = .error msg) :
    (∃ rest, msg = "Missing required fields: " ++ rest) ∨
    msg = "occurred_at must be a valid ISO date string" := by
  simp only [validateEnvelope] at h
  by_cases h1 :
      0 < (requiredFields.filter (fun f => ! fieldTruthy envelope f)).length
  · rw [if_pos h1] at h
    injection h with h2
    exact .inl ⟨_, h2.symm⟩
  · rw [if_neg h1] at h
    cases hdk : dateOk ((envelope.getField "occurred_at").getD .null) with
    | true => rw [hdk] at h; simp at h
    | false =>
      rw [hdk] at h
      injection h with h2
      exact .inr h2.symm

theorem computeIdempotencyKey_error_shape {envelope : JsValue} {e : String}
    (h : computeIdempotencyKey envelope = .error e) :
    e = "No idempotency key found" := by
  simp only [computeIdempotencyKey] at h
  split at h
  · split at h
    · simp at h
    · injection h with h1
      exact h1.symm
  · injection h with h1
    exact h1.symm

theorem validationError_is400 {dateOk : JsValue → Bool} {envelope : JsValue}
    {e : String} (h : validateAndExtractKey dateOk envelope = .error e) :
    categorizeError e = ⟨true, 400, "validation_error"⟩ := by
  unfold validateAndExtractKey at h
  cases hv : validateEnvelope dateOk envelope with
  | error msg =>
    rw [hv] at h
    injection h with h1
    subst h1
    rcases validateEnvelope_error_shape hv with ⟨rest, rfl⟩ | rfl
    · have hi := includesLower_missingMsg rest
      simp [categorizeError, hi]
    · decide
  | ok u =>
    rw [hv] at h
    cases hk : computeIdempotencyKey envelope with
    | error msg =>
      rw [hk] at h
      injection h with h1
      subst h1
      rw [computeIdempotencyKey_error_shape hk]
      decide
    | ok k =>
      rw [hk] at h
      simp at h

theorem processPubSubMessage_status (dateOk : JsValue → Bool)
    (parseJson : String → Except String JsValue) (sampled : JsValue → Bool)
    (enableBatching : Bool) (batchOutcome : Except String Unit)
    (writeThrow : Option String) (message : Option PsMessage) :
    (processPubSubMessage dateOk parseJson sampled enableBatching batchOutcome
        writeThrow message).statusCode = 204 ∨
    ∃ msg, (processPubSubMessage dateOk parseJson sampled enableBatching
        batchOutcome writeThrow message).statusCode
      = (categorizeError msg).statusCode := by
  cases message with
  | none => exact .inr ⟨_, rfl⟩
  | some m =>
    cases hd : m.data with
    | none =>
      simp only [processPubSubMessage, hd]
      exact .inr ⟨_, rfl⟩
    | some d =>
      simp only [processPubSubMessage, hd]
      by_cases hde : d = ""
      · rw [if_pos hde]
        exact .inr ⟨_, rfl⟩
      · rw [if_neg hde]
        cases hp : parseJson d with
        | error e =>
          simp only []
          exact .inr ⟨e, rfl⟩
        | ok envelope =>
          simp only []
          cases hv : validateAndExtractKey dateOk envelope with
          | error e =>
            simp only []
            exact .inr ⟨e, rfl⟩
          | ok key =>
            simp only []
            cases hs : sampled key with
            | false => exact .inl rfl
            | true =>
              cases enableBatching with
              | true =>
                cases batchOutcome with
                | ok u => exact .inl rfl
                | error e =>
                  simp only []
                  exact .inr ⟨e, rfl⟩
              | false =>
                cases writeThrow with
                | some e =>
                  simp only []
                  exact .inr ⟨e, rfl⟩
                | none => exact .inl rfl

/-- For every call to the ingestion entry point, the HTTP status sent is one
of `204`, `400`, `422`, `503`; a sampled-out or successfully written event
yields `204`; a validation failure yields `400`; a parse failure is answered
with the `categorizeError` classification of its message — `422` only when
the message matches the `'invalid json'`/`'malformed envelope'` patterns,
the transient `503` otherwise. -/
theorem handler_status_classes :
    ∀ (dateOk : JsValue → Bool) (parseJson : String → Except String JsValue)
      (sampled : JsValue → Bool) (enableBatching : Bool)
      (batchOutcome : Except String Unit) (writeThrow : Option String)
      (message : Option PsMessage),
      (handlePubSubRequest dateOk parseJson sampled enableBatching
          batchOutcome writeThrow message = 204 ∨
        handlePubSubRequest dateOk parseJson sampled enableBatching
          batchOutcome writeThrow message = 400 ∨
        handlePubSubRequest dateOk parseJson sampled enableBatching
          batchOutcome writeThrow message = 422 ∨
        handlePubSubRequest dateOk parseJson sampled enableBatching
          batchOutcome writeThrow message = 503) ∧
      (∀ m d envelope key, message = some m → m.data = some d → d ≠ "" →
        parseJson d = .ok envelope →
        validateAndExtractKey dateOk envelope = .ok key →
        sampled key = false →
        handlePubSubRequest dateOk parseJson sampled enableBatching
          batchOutcome writeThrow message = 204) ∧
      (∀ m d envelope key, message = some m → m.data = some d → d ≠ "" →
        parseJson d = .ok envelope →
        validateAndExtractKey dateOk envelope = .ok key →
        sampled key = true → enableBatching = true → batchOutcome = .ok () →
        handlePubSubRequest dateOk parseJson sampled enableBatching
          batchOutcome writeThrow message = 204) ∧
      (∀ m d envelope e, message = some m → m.data = some d → d ≠ "" →
        parseJson d = .ok envelope →
        validateAndExtractKey dateOk envelope = .error e →
        handlePubSubRequest dateOk parseJson sampled enableBatching
          batchOutcome writeThrow message = 400) ∧
      (∀ m d e, message = some m → m.data = some d → d ≠ "" →
        parseJson d = .error e →
        handlePubSubRequest dateOk parseJson sampled enableBatching
          batchOutcome writeThrow message
          = (categorizeError e).statusCode) ∧
      (categorizeError "Invalid JSON in message data"
          = ⟨true, 422, "format_error"⟩ ∧
        categorizeError "BigQuery insert timed out"
          = ⟨false, 503, "transient_error"⟩) := by
  intro dateOk parseJson sampled enableBatching batchOutcome writeThrow message
  refine ⟨?_, ?_, ?_, ?_, ?_, by decide, by decide⟩
  · rcases processPubSubMessage_status dateOk parseJson sampled enableBatching
        batchOutcome writeThrow message with h | ⟨msg, h⟩
    · exact .inl h
    · unfold handlePubSubRequest
      rw [h]
      rcases categorizeError_status msg with hc | hc | hc
      · exact .inr (.inl hc)
      · exact .inr (.inr (.inl hc))
      · exact .inr (.inr (.inr hc))
  · intro m d envelope key hm hd hdne hp hv hs
    subst hm
    unfold handlePubSubRequest processPubSubMessage
    simp only [hd, if_neg hdne, hp, hv, hs]
    rfl
  · intro m d envelope key hm hd hdne hp hv hs hb ho
    subst hm
    subst hb
    subst ho
    unfold handlePubSubRequest processPubSubMessage
    simp only [hd, if_neg hdne, hp, hv, hs]
    rfl
  · intro m d envelope e hm hd hdne hp hv
    subst hm
    unfold handlePubSubRequest processPubSubMessage
    simp only [hd, if_neg hdne, hp, hv]
    show (catchResult e).statusCode = 400
    have h4 := validationError_is400 hv
    show (categorizeError e).statusCode = 400
    rw [h4]
  · intro m d e hm hd hdne hp
    subst hm
    unfold handlePubSubRequest processPubSubMessage
    simp only [hd, if_neg hdne, hp]
    rfl


/-- C3: the `422 for a malformed/unparseable envelope` leg of the contract is
a code bug in `handler.js`.  A `JSON.parse` failure propagates the raw
SyntaxError message (`Unexpected token o in JSON at position 1`, or the
newer `... is not valid JSON` form); neither contains the `invalid json` or
`malformed envelope` substrings `categorizeError` tests for, so every
actually unparseable envelope is answered `503` (transient — the transport
retries a poison message), never `422`.  The repository's own test suite
expects `422` together with `is not valid JSON` for a malformed envelope,
which only the later handler variants with an `instanceof SyntaxError`
check satisfy. -/
theorem c3_unparseable_envelope_503 :
    handlePubSubRequest (fun _ => true)
      (fun _ => .error "Unexpected token o in JSON at position 1")
      (fun _ => true) false (.ok ()) none
      (some ⟨some "bm90LXZhbGlkLWpzb24="⟩) = 503 ∧
    handlePubSubRequest (fun _ => true)
      (fun _ => .error "Unexpected token o in JSON at position 1")
      (fun _ => true) false (.ok ()) none
      (some ⟨some "bm90LXZhbGlkLWpzb24="⟩) ≠ 422 ∧
    handlePubSubRequest (fun _ => true)
      (fun _ => .error "The string not-valid-json-at-all is not valid JSON")
      (fun _ => true) false (.ok ()) none
      (some ⟨some "bm90LXZhbGlkLWpzb24="⟩) = 503 ∧
    (categorizeError "The string not-valid-json-at-all is not valid JSON").isTerminal
      = false := by
  refine ⟨by decide, by decide, by decide, by decide⟩

theorem handler_status_classes_witness :
    handlePubSubRequest (fun _ => true) (fun _ => .ok envAllPresent)
      (fun _ => false) false (.ok ()) none (some ⟨some "eyJ9"⟩) = 204 ∧
    handlePubSubRequest (fun _ => true) (fun _ => .ok envAllPresent)
      (fun _ => true) true (.ok ()) none (some ⟨some "eyJ9"⟩) = 204 ∧
    handlePubSubRequest (fun _ => false) (fun _ => .ok envAllPresent)
      (fun _ => true) false (.ok ()) none (some ⟨some "eyJ9"⟩) = 400 ∧
    handlePubSubRequest (fun _ => true)
      (fun _ => .error "Unexpected token u in JSON at position 0")
      (fun _ => true) false (.ok ()) none (some ⟨some "dW5wYXJzZWFibGU="⟩)
      = (categorizeError "Unexpected token u in JSON at position 0").statusCode :=
  ⟨(handler_status_classes (fun _ => true) (fun _ => .ok envAllPresent)
      (fun _ => false) false (.ok ()) none (some ⟨some "eyJ9"⟩)).2.1
      ⟨some "eyJ9"⟩ "eyJ9" envAllPresent (.str "c1") rfl rfl (by decide)
      rfl rfl rfl,
   (handler_status_classes (fun _ => true) (fun _ => .ok envAllPresent)
      (fun _ => true) true (.ok ()) none (some ⟨some "eyJ9"⟩)).2.2.1
      ⟨some "eyJ9"⟩ "eyJ9" envAllPresent (.str "c1") rfl rfl (by decide)
      rfl rfl rfl rfl rfl,
   (handler_status_classes (fun _ => false) (fun _ => .ok envAllPresent)
      (fun _ => true) false (.ok ()) none (some ⟨some "eyJ9"⟩)).2.2.2.1
      ⟨some "eyJ9"⟩ "eyJ9" envAllPresent
      "occurred_at must be a valid ISO date string" rfl rfl (by decide)
      rfl rfl,
   (handler_status_classes (fun _ => true)
      (fun _ => .error "Unexpected token u in JSON at position 0")
      (fun _ => true) false (.ok ()) none
      (some ⟨some "dW5wYXJzZWFibGU="⟩)).2.2.2.2.1
      ⟨some "dW5wYXJzZWFibGU="⟩ "dW5wYXJzZWFibGU="
      "Unexpected token u in JSON at position 0" rfl rfl (by decide) rfl⟩

/-! ## Claims C4 and C9 — accumulator flush timing and completion handles -/

theorem flushBatchState_inv {t : ℕ} {s : AccState} (h : accInv s) :
    accInv (flushBatchState t s) := by
  obtain ⟨h1, h2, h3⟩ := h
  unfold flushBatchState
  cases he : s.batchQueue.isEmpty with
  | true => exact ⟨h1, h2, h3⟩
  | false =>
    refine ⟨rfl, ?_, ?_⟩
    · show (s.resolved ++ s.pendingResponses) ++ [] = List.range s.nextId
      rw [List.append_nil, h1]
      exact h2
    · show s.resolved ++ s.pendingResponses
        = ((s.flushes ++ [(t, s.batchQueue)]).map (fun p => p.2)).flatten
      rw [List.map_append, List.flatten_append]
      simp only [List.map_cons, List.map_nil, List.flatten_cons,
        List.flatten_nil, List.append_nil]
      rw [h1, ← h3]

theorem accStep_inv {maxB maxW : ℕ} {s : AccState} (h : accInv s)
    (e : AccEvent) : accInv (accStep maxB maxW s e) := by
  obtain ⟨h1, h2, h3⟩ := h
  have hadd : accInv { s with
      nextId := s.nextId + 1
      batchQueue := s.batchQueue ++ [s.nextId]
      pendingResponses := s.pendingResponses ++ [s.nextId] } := by
    refine ⟨by simp [h1], ?_, by simp [h3]⟩
    simp only
    rw [← List.append_assoc, h2, List.range_succ]
  cases e with
  | add t =>
    simp only [accStep]
    split
    · exact flushBatchState_inv hadd
    · split
      · exact hadd
      · exact hadd
  | fire t =>
    simp only [accStep]
    cases hb : s.batchTimer with
    | none => exact ⟨h1, h2, h3⟩
    | some d =>
      simp only []
      by_cases hdt : d = t
      · rw [if_pos hdt]
        exact flushBatchState_inv ⟨h1, h2, h3⟩
      · rw [if_neg hdt]
        exact ⟨h1, h2, h3⟩
  | shutdown t =>
    simp only [accStep]
    split
    · exact flushBatchState_inv ⟨h1, h2, h3⟩
    · exact ⟨h1, h2, h3⟩

theorem accRun_inv (maxB maxW : ℕ) (events : List AccEvent) :
    accInv (accRun maxB maxW events) := by
  suffices h : ∀ s, accInv s →
      accInv (events.foldl (accStep maxB maxW) s) by
    exact h accInit ⟨rfl, rfl, rfl⟩
  induction events with
  | nil => intro s hs; exact hs
  | cons e es ih =>
    intro s hs
    exact ih _ (accStep_inv hs e)

theorem accStep_shutdown_empty (maxB maxW t : ℕ) (s : AccState) :
    (accStep maxB maxW s (.shutdown t)).batchQueue = [] := by
  simp only [accStep]
  split
  · unfold flushBatchState
    cases he : s.batchQueue.isEmpty with
    | true =>
      rename_i hpos
      rw [List.isEmpty_iff] at he
      rw [he] at hpos
      simp at hpos
    | false => rfl
  · rename_i hpos
    have : s.batchQueue.length = 0 := by omega
    exact List.length_eq_zero.mp this

/-- C9: every item accepted into a batch gets a completion handle at enqueue
time; the batch queue and the pending-handle list always have equal length
(they are equal lists of handles), no handle is ever resolved twice, each
recorded flush resolves exactly the handles of the items it drained, and
after the shutdown flush every accepted handle has been resolved exactly
once with nothing left pending. -/
theorem c9_completion_handles :
    ∀ (maxB maxW : ℕ) (events : List AccEvent) (t : ℕ),
      (accRun maxB maxW events).pendingResponses
        = (accRun maxB maxW events).batchQueue ∧
      (accRun maxB maxW events).resolved.Nodup ∧
      (accRun maxB maxW events).resolved
        = ((accRun maxB maxW events).flushes.map (fun p => p.2)).flatten ∧
      (accRun maxB maxW (events ++ [.shutdown t])).batchQueue = [] ∧
      (accRun maxB maxW (events ++ [.shutdown t])).resolved
        = List.range (accRun maxB maxW (events ++ [.shutdown t])).nextId := by
  intro maxB maxW events t
  obtain ⟨h1, h2, h3⟩ := accRun_inv maxB maxW events
  have hsplit : accRun maxB maxW (events ++ [.shutdown t])
      = accStep maxB maxW (accRun maxB maxW events) (.shutdown t) := by
    simp [accRun, List.foldl_append]
  obtain ⟨g1, g2, g3⟩ := accRun_inv maxB maxW (events ++ [.shutdown t])
  have hq : (accRun maxB maxW (events ++ [.shutdown t])).batchQueue = [] := by
    rw [hsplit]
    exact accStep_shutdown_empty maxB maxW t _
  refine ⟨h1, ?_, h3, hq, ?_⟩
  · have : ((accRun maxB maxW events).resolved
        ++ (accRun maxB maxW events).batchQueue).Nodup := by
      rw [h2]
      exact List.nodup_range _
    exact this.of_append_left
  · have := g2
    rw [hq, List.append_nil] at this
    exact this

theorem c4_lengths (s : AccState) (x : ℕ) :
    (s.batchQueue ++ [x]).length = s.batchQueue.length + 1 := by
  simp

/-- C4: with `maxBatchSize = 3` and `maxBatchWaitMs = 1000`, an add that
brings the open batch to 3 items flushes it immediately at the add's time;
an add into an empty-timer batch below the threshold arms the flush timer
for 1000 ms later and flushes nothing; concretely, three adds flush all
three items at the third add with no timer wait, and one add followed by
the timer firing flushes that single item 1000 ms after the add. -/
theorem c4_flush_timing :
    ∀ (s : AccState) (t t₀ t₁ t₂ : ℕ),
      (3 ≤ s.batchQueue.length + 1 →
        (accStep 3 1000 s (.add t)).flushes
          = s.flushes ++ [(t, s.batchQueue ++ [s.nextId])] ∧
        (accStep 3 1000 s (.add t)).batchQueue = []) ∧
      (s.batchQueue.length + 1 < 3 → s.batchTimer = none →
        (accStep 3 1000 s (.add t)).batchTimer = some (t + 1000) ∧
        (accStep 3 1000 s (.add t)).flushes = s.flushes) ∧
      ((accRun 3 1000 [.add t₀, .add t₁, .add t₂]).flushes
          = [(t₂, [0, 1, 2])] ∧
        (accRun 3 1000 [.add t₀, .add t₁, .add t₂]).batchQueue = []) ∧
      ((accRun 3 1000 [.add t₀, .fire (t₀ + 1000)]).flushes
          = [(t₀ + 1000, [0])] ∧
        (accRun 3 1000 [.add t₀, .fire (t₀ + 1000)]).batchQueue = []) := by
  intro s t t₀ t₁ t₂
  refine ⟨fun hsz => ?_, fun hsz htimer => ?_, ?_, ?_⟩
  · have hlen : (s.batchQueue ++ [s.nextId]).length ≥ 3 := by
      rw [c4_lengths]
      omega
    have hne : (s.batchQueue ++ [s.nextId]).isEmpty = false := by
      simp
    simp only [accStep, hlen, if_pos]
    unfold flushBatchState
    simp [hne]
  · have hlen : ¬ ((s.batchQueue ++ [s.nextId]).length ≥ 3) := by
      rw [c4_lengths]
      omega
    simp only [accStep]
    rw [if_neg hlen]
    have harm : (s.batchTimer.isNone
        && decide (0 < (s.batchQueue ++ [s.nextId]).length)) = true := by
      simp [htimer]
    rw [if_pos harm]
    exact ⟨rfl, rfl⟩
  · constructor
    · simp [accRun, accStep, accInit, flushBatchState]
    · simp [accRun, accStep, accInit, flushBatchState]
  · constructor
    · simp [accRun, accStep, accInit, flushBatchState]
    · simp [accRun, accStep, accInit, flushBatchState]

theorem c4_flush_timing_witness :
    (accStep 3 1000 ⟨2, [0, 1], [0, 1], some 500, [], []⟩ (.add 7)).flushes
      = [(7, [0, 1, 2])] ∧
    (accStep 3 1000 ⟨2, [0, 1], [0, 1], some 500, [], []⟩ (.add 7)).batchQueue
      = [] ∧
    (accStep 3 1000 ⟨0, [], [], none, [], []⟩ (.add 7)).batchTimer
      = some 1007 :=
  ⟨((c4_flush_timing ⟨2, [0, 1], [0, 1], some 500, [], []⟩ 7 0 0 0).1
      (by decide)).1,
   ((c4_flush_timing ⟨2, [0, 1], [0, 1], some 500, [], []⟩ 7 0 0 0).1
      (by decide)).2,
   ((c4_flush_timing ⟨0, [], [], none, [], []⟩ 7 0 0 0).2.1 (by decide)
      rfl).1⟩
